import Mathlib

/-!
Verification of the simple_orm field-marshalling protocol and SQL
statement-synthesis engine, shallowly embedded from the Rust source:
`src/src/models/database_field.rs`, `src/src/models/database_condition.rs`,
`src/src/databases/postgres.rs` and the derive macro in
`src/simple_orm-derive/src/lib.rs`.
-/

namespace SimpleOrm

/-- `FieldType` from `database_field.rs`: a closed tagged union over
`Number(i64)`, `String(String)`, `Bool(bool)`. -/
inductive FieldType where
  | Number : Int → FieldType
  | String : String → FieldType
  | Bool : Bool → FieldType
deriving DecidableEq

/-- `DatabaseField` from `database_field.rs`: name, value, and the four
constraint attributes `unique`, `mandatory`, `primary_key`,
`foreign_key: Option<(String, String)>` (referenced table, referenced column). -/
structure DatabaseField where
  field_name : String
  field_type : FieldType
  unique : Bool
  mandatory : Bool
  primary_key : Bool
  foreign_key : Option (String × String)
deriving DecidableEq

/-- `DatabaseField::new`: all flags false, no foreign key. -/
def DatabaseField.new (field_name : String) (field_type : FieldType) : DatabaseField :=
  { field_name := field_name, field_type := field_type, unique := false,
    mandatory := false, primary_key := false, foreign_key := none }

/-- `DatabaseFieldBuilder` from `database_field.rs`: wraps a `DatabaseField`
being built. -/
structure DatabaseFieldBuilder where
  dbf : DatabaseField
deriving DecidableEq

/-- `DatabaseField::builder(field_name, field_type)`. -/
def DatabaseField.builder (field_name : String) (field_type : FieldType) :
    DatabaseFieldBuilder :=
  { dbf := DatabaseField.new field_name field_type }

/-- Builder operation `is_mandatory`. -/
def DatabaseFieldBuilder.is_mandatory (b : DatabaseFieldBuilder) : DatabaseFieldBuilder :=
  { dbf := { b.dbf with mandatory := true } }

/-- Builder operation `is_primary_key`. -/
def DatabaseFieldBuilder.is_primary_key (b : DatabaseFieldBuilder) : DatabaseFieldBuilder :=
  { dbf := { b.dbf with primary_key := true } }

/-- Builder operation `is_foreign_key(foreign_db, foreign_field)`. -/
def DatabaseFieldBuilder.is_foreign_key (b : DatabaseFieldBuilder)
    (foreign_db foreign_field : String) : DatabaseFieldBuilder :=
  { dbf := { b.dbf with foreign_key := some (foreign_db, foreign_field) } }

/-- Builder operation `is_unique`. -/
def DatabaseFieldBuilder.is_unique (b : DatabaseFieldBuilder) : DatabaseFieldBuilder :=
  { dbf := { b.dbf with unique := true } }

/-- Builder operation `build`. -/
def DatabaseFieldBuilder.build (b : DatabaseFieldBuilder) : DatabaseField :=
  b.dbf

/-- `ConditionOperator` from `database_condition.rs`. -/
inductive ConditionOperator where
  | Eq : ConditionOperator
  | Gt : ConditionOperator
  | Gte : ConditionOperator
  | Lt : ConditionOperator
  | Lte : ConditionOperator
deriving DecidableEq

/-- `DatabaseCondition` from `database_condition.rs`: column name, value
and comparison operator. -/
structure DatabaseCondition where
  name : String
  value : FieldType
  operator : ConditionOperator
deriving DecidableEq

namespace PostgresDB

/-- `PostgresDB::get_string_operator` from `postgres.rs`. -/
def get_string_operator : ConditionOperator → String
  | .Eq => "="
  | .Gt => ">"
  | .Gte => ">="
  | .Lt => "<"
  | .Lte => "<="

/-- `PostgresDB::stringify_condition` from `postgres.rs`: renders one
condition as `<name> <operator> <literal>`, wrapping `String` values in
single quotes and leaving `Number`/`Bool` values bare. -/
def stringify_condition (cond : DatabaseCondition) : String :=
  match cond.value with
  | .String val =>
      cond.name ++ " " ++ get_string_operator cond.operator ++ " '" ++ val ++ "'"
  | .Number val =>
      cond.name ++ " " ++ get_string_operator cond.operator ++ " " ++ toString val
  | .Bool val =>
      cond.name ++ " " ++ get_string_operator cond.operator ++ " " ++ toString val

/-- The per-field literal rendering inside
`PostgresDB::stringify_datafield_in_key_val_string`: `Number` and `Bool`
values bare, `String` values single-quoted. -/
def stringify_field_value : FieldType → String
  | .Number val => toString val
  | .String val => "'" ++ val ++ "'"
  | .Bool val => toString val

/-- `PostgresDB::stringify_datafield_in_key_val_string` from `postgres.rs`:
the comma-joined field-name string and the comma-joined literal string,
both in descriptor order, with `", "` between all but the last entries. -/
def stringify_datafield_in_key_val_string : List DatabaseField → (String × String)
  | [] => ("", "")
  | [field] => (field.field_name, stringify_field_value field.field_type)
  | field :: rest =>
      let joined := stringify_datafield_in_key_val_string rest
      (field.field_name ++ ", " ++ joined.1,
       stringify_field_value field.field_type ++ ", " ++ joined.2)

/-- The SQL column type chosen in `initialize`:
`Number → INTEGER`, `String → TEXT`, `Bool → BOOLEAN`. -/
def field_sql_type : FieldType → String
  | .Number _ => "INTEGER"
  | .String _ => "TEXT"
  | .Bool _ => "BOOLEAN"

/-- The three accumulator vectors built by `initialize`'s single pass over
the descriptor list: column definitions, primary-key names, foreign-key
references. -/
structure InitAcc where
  table_fields : List String
  list_primary_key : List String
  list_foreign_key : List (String × String)
deriving DecidableEq

/-- One iteration of `initialize`'s loop over the fields: push the column
definition `<name> <type>[ NOT NULL][ UNIQUE]`, record the name if the field
is primary-key-marked, record the reference if it is foreign-key-marked. -/
def initialize_step (acc : InitAcc) (field : DatabaseField) : InitAcc :=
  let ftype := field_sql_type field.field_type
  let mand := if field.mandatory then " NOT NULL" else ""
  let uniq := if field.unique then " UNIQUE" else ""
  let acc1 :=
    if field.primary_key then
      { acc with list_primary_key := acc.list_primary_key ++ [field.field_name] }
    else acc
  let acc2 :=
    match field.foreign_key with
    | some key => { acc1 with list_foreign_key := acc1.list_foreign_key ++ [key] }
    | none => acc1
  { acc2 with
    table_fields :=
      acc2.table_fields ++ [field.field_name ++ " " ++ ftype ++ mand ++ uniq] }

/-- The whole loop of `initialize` over the descriptor list. -/
def initialize_scan (fields : List DatabaseField) : InitAcc :=
  fields.foldl initialize_step { table_fields := [], list_primary_key := [], list_foreign_key := [] }

/-- The foreign-key constraint clause `initialize` pushes for one recorded
reference `key = (referenced_table, referenced_column)`: the source
interpolates `key.1, key.0, key.1`, i.e. the referenced column name appears
both inside `FOREIGN KEY (...)` and inside the `REFERENCES` parentheses. -/
def foreign_key_clause (key : String × String) : String :=
  "FOREIGN KEY (" ++ key.2 ++ ") REFERENCES " ++ key.1 ++ "(" ++ key.2 ++
    ") ON DELETE SET NULL"

/-- The constraints vector `initialize` appends after the column
definitions: one `PRIMARY KEY (...)` clause when any field is
primary-key-marked, then one foreign-key clause per recorded reference. -/
def initialize_constraints (fields : List DatabaseField) : List String :=
  let acc := initialize_scan fields
  let with_pk :=
    if acc.list_primary_key.length > 0 then
      ["PRIMARY KEY (" ++ String.intercalate "," acc.list_primary_key ++ ")"]
    else []
  let with_fk :=
    if acc.list_foreign_key.length > 0 then
      acc.list_foreign_key.map foreign_key_clause
    else []
  with_pk ++ with_fk

/-- The `CREATE TABLE` statement text synthesized by `initialize`. -/
def initialize_statement (table : String) (fields : List DatabaseField) : String :=
  "CREATE TABLE IF NOT EXISTS " ++ table ++ " (\n" ++
    String.intercalate ",\n" (initialize_scan fields).table_fields ++ ",\n" ++
    String.intercalate ",\n" (initialize_constraints fields) ++ ");"

/-- The `INSERT` statement text synthesized by `insert` (note: no trailing
semicolon in the source). -/
def insert_statement (table : String) (fields : List DatabaseField) : String :=
  let joined := stringify_datafield_in_key_val_string fields
  "INSERT INTO " ++ table ++ "(" ++ joined.1 ++ ") VALUES(" ++ joined.2 ++ ")"

/-- The condition-joining loop inside `update`: conditions in order,
with `" AND "` between all but the last. -/
def update_where_join : List DatabaseCondition → String
  | [] => ""
  | [curr_cond] => stringify_condition curr_cond
  | curr_cond :: rest => stringify_condition curr_cond ++ " AND " ++ update_where_join rest

/-- The `cond` string built inside `update`: empty for an empty condition
list, otherwise `" WHERE "` followed by the joined conditions. -/
def update_where (conditions : List DatabaseCondition) : String :=
  if conditions.length > 0 then " WHERE " ++ update_where_join conditions else ""

/-- The `UPDATE` statement text synthesized by `update`. -/
def update_statement (table : String) (fields : List DatabaseField)
    (conditions : List DatabaseCondition) : String :=
  let joined := stringify_datafield_in_key_val_string fields
  "UPDATE " ++ table ++ " SET (" ++ joined.1 ++ ") = (" ++ joined.2 ++ ")" ++
    update_where conditions ++ ";"

/-- The condition-joining loop inside `delete` (transcribed separately:
the source repeats the loop). -/
def delete_where_join : List DatabaseCondition → String
  | [] => ""
  | [curr_cond] => stringify_condition curr_cond
  | curr_cond :: rest => stringify_condition curr_cond ++ " AND " ++ delete_where_join rest

/-- The `cond` string built inside `delete`. -/
def delete_where (query : List DatabaseCondition) : String :=
  if query.length > 0 then " WHERE " ++ delete_where_join query else ""

/-- The `DELETE` statement text synthesized by `delete`. -/
def delete_statement (table : String) (query : List DatabaseCondition) : String :=
  "DELETE FROM " ++ table ++ delete_where query ++ ";"

/-- The condition-joining loop inside `get` (transcribed separately:
the source repeats the loop a third time). -/
def get_where_join : List DatabaseCondition → String
  | [] => ""
  | [curr_cond] => stringify_condition curr_cond
  | curr_cond :: rest => stringify_condition curr_cond ++ " AND " ++ get_where_join rest

/-- The `cond` string built inside `get`. -/
def get_where (query : List DatabaseCondition) : String :=
  if query.length > 0 then " WHERE " ++ get_where_join query else ""

/-- The `SELECT` statement text synthesized by `get` (the source writes a
lowercase `from`). -/
def get_statement (table : String) (fields : List DatabaseField)
    (query : List DatabaseCondition) : String :=
  let field_str := String.intercalate ", " (fields.map DatabaseField.field_name)
  "SELECT " ++ field_str ++ " from " ++ table ++ get_where query ++ ";"

end PostgresDB

/-! ## The Schema Binder (derive macro) model

`simple_orm-derive/src/lib.rs` generates, for a struct whose fields all have
supported primitive families, an implementation of `DatabaseInsertable`:
`database_name`, `fields_value` and `from_fields`.  A record type is modelled
as its ordered list of field declarations (name, primitive family,
primary-key mark), and an instance as the ordered list of its field values. -/

/-- A declared primitive field family the derive macro supports: an integer
type carried as its inclusive value range (driving the `i64` embedding and
the `try_into` narrowing in the generated code), a string type, or `bool`. -/
inductive PrimTy where
  | num : Int → Int → PrimTy
  | str : PrimTy
  | bool : PrimTy
deriving DecidableEq

/-- One declared struct field as the derive macro sees it: identifier,
primitive family, and whether a `simple_orm(primary_key)` mark is attached. -/
structure FieldDecl where
  name : String
  ty : PrimTy
  primary_key : Bool
deriving DecidableEq

/-- The runtime value of one struct field. -/
inductive PrimVal where
  | num : Int → PrimVal
  | str : String → PrimVal
  | bool : Bool → PrimVal
deriving DecidableEq

/-- A field value is well typed for a declared family when its variant
matches and, for an integer family, the value lies in the declared range
(in Rust this is enforced by the struct field's own type). -/
def wellTyped : PrimTy → PrimVal → Bool
  | .num lo hi, .num v => decide (lo ≤ v) && decide (v ≤ hi)
  | .str, .str _ => true
  | .bool, .bool _ => true
  | _, _ => false

/-- A whole instance is well typed for a declaration list when the two
lists have the same length and are pointwise well typed. -/
def typed : List FieldDecl → List PrimVal → Bool
  | [], [] => true
  | d :: decl, v :: vals => wellTyped d.ty v && typed decl vals
  | _, _ => false

/-- The `From` conversions of `FieldType` used by the generated
`fields_value` (`From<u8>`, `From<i8>`, `From<i16>`, `From<i32>`,
`From<String>`, `From<bool>`): lossless and total. -/
def FieldType.fromPrim : PrimVal → FieldType
  | .num v => .Number v
  | .str s => .String s
  | .bool b => .Bool b

/-- The `fields_value` implementation the derive macro generates: one
`DatabaseField::builder(stringify!(name), FieldType::from(self.name.clone()))`
per declared field in declaration order, with `.is_primary_key()` inserted
exactly for the marked fields, then `.build()`. -/
def gen_field (d : FieldDecl) (v : PrimVal) : DatabaseField :=
  let b := DatabaseField.builder d.name (FieldType.fromPrim v)
  let b2 := if d.primary_key then b.is_primary_key else b
  b2.build

/-- `fields_value` is `gen_field` applied to the declared fields and the
instance values pairwise, in declaration order. -/
def fields_value (decl : List FieldDecl) (vals : List PrimVal) : List DatabaseField :=
  List.zipWith gen_field decl vals

/-- The `database_name` implementation the derive macro generates: the
hard-coded string literal `"aled"`, whatever the deriving type is. -/
def database_name : String := "aled"

/-- Outcome of running the generated `from_fields`: `Ok`, an early
`return Err(..)`, or a Rust panic (the generated numeric arm calls
`val.try_into().unwrap()`, which panics when the narrowing fails). -/
inductive FromResult (α : Type) where
  | ok : α → FromResult α
  | err : String → FromResult α
  | panicked : FromResult α
deriving DecidableEq

/-- One generated type-check arm of `from_fields`, applied to the descriptor
found for a declared field: an integer family matches `Number` and narrows
with `val.try_into().unwrap()` (a panic when the value is outside the
declared range); string families match `String`; `bool` matches `Bool`.
Any other variant returns the generated error string — which interpolates
`stringify!(id)`, the literal identifier `id`, not the field being
processed. -/
def type_check (ty : PrimTy) (f : DatabaseField) : FromResult PrimVal :=
  match ty, f.field_type with
  | .num lo hi, .Number val =>
      if lo ≤ val ∧ val ≤ hi then .ok (.num val) else .panicked
  | .num _ _, _ => .err "Mismatched field type for 'id'"
  | .str, .String val => .ok (.str val)
  | .str, _ => .err "Mismatched field type for 'id'"
  | .bool, .Bool val => .ok (.bool val)
  | .bool, _ => .err "Mismatched field type for 'id'"

/-- The `from_fields` implementation the derive macro generates: for every
declared field in declaration order, look the descriptor up by name with
`fields.iter().find(..)`; a missing descriptor returns
`Err("Field '<name>' not found in fields vector")`, a found one runs the
type-check arm; the first failing field aborts the whole construction. -/
def from_fields (decl : List FieldDecl) (fields : List DatabaseField) :
    FromResult (List PrimVal) :=
  match decl with
  | [] => .ok []
  | d :: rest =>
    match fields.find? (fun field => field.field_name == d.name) with
    | none => .err ("Field '" ++ d.name ++ "' not found in fields vector")
    | some f =>
      match type_check d.ty f with
      | .ok v =>
        match from_fields rest fields with
        | .ok vs => .ok (v :: vs)
        | .err e => .err e
        | .panicked => .panicked
      | .err e => .err e
      | .panicked => .panicked

/-- The test record type `User` from `postgres.rs`:
`id: String` (primary key), `name: String`, `age: u8`, `activated: bool`. -/
def UserDecl : List FieldDecl :=
  [{ name := "id", ty := .str, primary_key := true },
   { name := "name", ty := .str, primary_key := false },
   { name := "age", ty := .num 0 255, primary_key := false },
   { name := "activated", ty := .bool, primary_key := false }]

/-- The `User` instance used by the spec's end-to-end scenario:
`id: "abc", name: "Jo", age: 25, activated: true`. -/
def userVals : List PrimVal :=
  [.str "abc", .str "Jo", .num 25, .bool true]

/-! ## Marshalling lemmas and theorems -/

theorem gen_field_name (d : FieldDecl) (v : PrimVal) :
    (gen_field d v).field_name = d.name := by
  cases h : d.primary_key <;>
    simp [gen_field, h, DatabaseField.builder, DatabaseField.new,
      DatabaseFieldBuilder.is_primary_key, DatabaseFieldBuilder.build]

theorem gen_field_type (d : FieldDecl) (v : PrimVal) :
    (gen_field d v).field_type = FieldType.fromPrim v := by
  cases h : d.primary_key <;>
    simp [gen_field, h, DatabaseField.builder, DatabaseField.new,
      DatabaseFieldBuilder.is_primary_key, DatabaseFieldBuilder.build]

theorem type_check_fromPrim (ty : PrimTy) (v : PrimVal) (f : DatabaseField)
    (hf : f.field_type = FieldType.fromPrim v) (h : wellTyped ty v = true) :
    type_check ty f = .ok v := by
  cases ty with
  | num lo hi =>
    cases v with
    | num n =>
      simp only [wellTyped, Bool.and_eq_true, decide_eq_true_eq] at h
      simp [type_check, hf, FieldType.fromPrim, h.1, h.2]
    | str s => simp [wellTyped] at h
    | bool b => simp [wellTyped] at h
  | str =>
    cases v with
    | num n => simp [wellTyped] at h
    | str s => simp [type_check, hf, FieldType.fromPrim]
    | bool b => simp [wellTyped] at h
  | bool =>
    cases v with
    | num n => simp [wellTyped] at h
    | str s => simp [wellTyped] at h
    | bool b => simp [type_check, hf, FieldType.fromPrim]

/-- Looking a declared field up skips a leading descriptor whose name is not
declared: the generated `find`-by-name ignores it for every field. -/
theorem from_fields_skip (decl : List FieldDecl) (x : DatabaseField)
    (fields : List DatabaseField)
    (h : ∀ d ∈ decl, x.field_name ≠ d.name) :
    from_fields decl (x :: fields) = from_fields decl fields := by
  induction decl with
  | nil => rfl
  | cons d rest ih =>
    have hx : (x.field_name == d.name) = false :=
      beq_eq_false_iff_ne.mpr (h d (by simp))
    have hrest : ∀ d2 ∈ rest, x.field_name ≠ d2.name :=
      fun d2 hd2 => h d2 (by simp [hd2])
    simp only [from_fields]
    rw [List.find?_cons_of_neg _ (by simp [hx]), ih hrest]

/-- Every descriptor `fields_value` emits carries a declared field name. -/
theorem name_mem_fields_value (decl : List FieldDecl) (vals : List PrimVal)
    (f : DatabaseField) (hf : f ∈ fields_value decl vals) :
    f.field_name ∈ decl.map FieldDecl.name := by
  induction decl generalizing vals with
  | nil => simp [fields_value] at hf
  | cons d rest ih =>
    cases vals with
    | nil => simp [fields_value] at hf
    | cons v vs =>
      simp only [fields_value, List.zipWith_cons_cons, List.mem_cons] at hf
      cases hf with
      | inl h => simp [h, gen_field_name]
      | inr h => exact List.mem_cons_of_mem _ (ih vs h)

/-- Claim C1: for every record type whose contract the derive macro
generates (declared fields of supported families, names distinct as Rust
guarantees) and every well-typed instance, `from_fields` applied to
`fields_value` of the instance succeeds and returns exactly the instance's
field values. -/
theorem c1_round_trip (decl : List FieldDecl) (vals : List PrimVal)
    (hnodup : (decl.map FieldDecl.name).Nodup) (hty : typed decl vals = true) :
    from_fields decl (fields_value decl vals) = .ok vals := by
  induction decl generalizing vals with
  | nil =>
    cases vals with
    | nil => rfl
    | cons v vs => simp [typed] at hty
  | cons d rest ih =>
    cases vals with
    | nil => simp [typed] at hty
    | cons v vs =>
      simp only [typed, Bool.and_eq_true] at hty
      obtain ⟨hv, hvs⟩ := hty
      simp only [List.map_cons, List.nodup_cons] at hnodup
      obtain ⟨hnotin, hnodup2⟩ := hnodup
      have hfind : ∀ l : List DatabaseField,
          (gen_field d v :: l).find? (fun field => field.field_name == d.name)
            = some (gen_field d v) :=
        fun l => List.find?_cons_of_pos _ (by simp [gen_field_name])
      have htc : type_check d.ty (gen_field d v) = .ok v :=
        type_check_fromPrim d.ty v _ (gen_field_type d v) hv
      have hskip : ∀ l, from_fields rest (gen_field d v :: l) = from_fields rest l := by
        intro l
        apply from_fields_skip
        intro d2 hd2
        rw [gen_field_name]
        intro heq
        exact hnotin (heq ▸ List.mem_map_of_mem FieldDecl.name hd2)
      simp only [fields_value, List.zipWith_cons_cons, from_fields, hfind, htc, hskip]
      rw [show List.zipWith gen_field rest vs = fields_value rest vs from rfl,
        ih vs hnodup2 hvs]

/-- Claim C9: removing the descriptor of any declared field from a complete
well-typed descriptor list makes `from_fields` fail with the
field-not-found error naming exactly that field. -/
theorem c9_missing_field (decl : List FieldDecl) (vals : List PrimVal) (i : Nat)
    (hnodup : (decl.map FieldDecl.name).Nodup) (hty : typed decl vals = true)
    (hi : i < decl.length) :
    from_fields decl ((fields_value decl vals).eraseIdx i)
      = .err ("Field '" ++ (decl.get ⟨i, hi⟩).name ++ "' not found in fields vector") := by
  induction decl generalizing vals i with
  | nil => simp at hi
  | cons d rest ih =>
    cases vals with
    | nil => simp [typed] at hty
    | cons v vs =>
      simp only [typed, Bool.and_eq_true] at hty
      obtain ⟨hv, hvs⟩ := hty
      simp only [List.map_cons, List.nodup_cons] at hnodup
      obtain ⟨hnotin, hnodup2⟩ := hnodup
      cases i with
      | zero =>
        have hnone : (fields_value rest vs).find?
            (fun field => field.field_name == d.name) = none := by
          rw [List.find?_eq_none]
          intro f hfmem
          simp only [beq_iff_eq]
          intro heq
          exact hnotin (heq ▸ name_mem_fields_value rest vs f hfmem)
        simp only [fields_value, List.zipWith_cons_cons, List.eraseIdx_cons_zero,
          from_fields]
        rw [show List.zipWith gen_field rest vs = fields_value rest vs from rfl, hnone]
        rfl
      | succ j =>
        have hj : j < rest.length := by simpa using hi
        have hfind : ∀ l : List DatabaseField,
            (gen_field d v :: l).find? (fun field => field.field_name == d.name)
              = some (gen_field d v) :=
          fun l => List.find?_cons_of_pos _ (by simp [gen_field_name])
        have htc : type_check d.ty (gen_field d v) = .ok v :=
          type_check_fromPrim d.ty v _ (gen_field_type d v) hv
        have hskip : ∀ l, from_fields rest (gen_field d v :: l) = from_fields rest l := by
          intro l
          apply from_fields_skip
          intro d2 hd2
          rw [gen_field_name]
          intro heq
          exact hnotin (heq ▸ List.mem_map_of_mem FieldDecl.name hd2)
        simp only [fields_value, List.zipWith_cons_cons, List.eraseIdx_cons_succ,
          from_fields, hfind, htc, hskip]
        rw [show List.zipWith gen_field rest vs = fields_value rest vs from rfl,
          ih vs j hnodup2 hvs hj]
        rfl

/-- Witness for C1 at the spec's end-to-end `User` instance. -/
theorem c1_round_trip_witness :
    ((UserDecl.map FieldDecl.name).Nodup ∧ typed UserDecl userVals = true)
    ∧ from_fields UserDecl (fields_value UserDecl userVals) = .ok userVals :=
  ⟨⟨by decide, by decide⟩, c1_round_trip UserDecl userVals (by decide) (by decide)⟩

/-- Witness for C9: removing the `name` descriptor (index 1) from the
`User` instance's complete list yields the error naming `name`. -/
theorem c9_missing_field_witness :
    ((UserDecl.map FieldDecl.name).Nodup ∧ typed UserDecl userVals = true
        ∧ 1 < UserDecl.length)
    ∧ from_fields UserDecl ((fields_value UserDecl userVals).eraseIdx 1)
        = .err ("Field '" ++ (UserDecl.get ⟨1, by decide⟩).name
            ++ "' not found in fields vector") :=
  ⟨⟨by decide, by decide, by decide⟩,
    c9_missing_field UserDecl userVals 1 (by decide) (by decide) (by decide)⟩

/-- Claim C2 evaluated at its failing input: in the generated `from_fields`
for `User`, giving the `name` field a `Number` value produces the
type-mismatch error naming `id` — the generated message interpolates the
literal `stringify!(id)` — not the mismatched field `name`. -/
theorem c2_type_mismatch_names_id :
    from_fields UserDecl
      [DatabaseField.new "id" (.String "abc"),
       DatabaseField.new "name" (.Number 5),
       DatabaseField.new "age" (.Number 25),
       DatabaseField.new "activated" (.Bool true)]
      = .err "Mismatched field type for 'id'" := by decide

/-- Claim C5 evaluated at its failing input: a `Number` value outside the
declared `u8` range of `age` makes the generated `from_fields` panic
(`val.try_into().unwrap()`), instead of returning an error value. -/
theorem c5_numeric_overflow_panics :
    from_fields UserDecl
      [DatabaseField.new "id" (.String "abc"),
       DatabaseField.new "name" (.String "Jo"),
       DatabaseField.new "age" (.Number 300),
       DatabaseField.new "activated" (.Bool true)]
      = .panicked := by decide

/-! ## Statement-engine lemmas and theorems -/

open PostgresDB

/-- Claim C3 evaluated at its failing input: for a descriptor named
`owner_id` referencing `users(id)`, `initialize` emits
`FOREIGN KEY (id) REFERENCES users(id) ON DELETE SET NULL` — the column
inside `FOREIGN KEY (...)` is the referenced column, not the descriptor's
own field name `owner_id`. -/
theorem c3_foreign_key_clause_eval :
    initialize_constraints
      [((DatabaseField.builder "owner_id" (.Number 0)).is_foreign_key "users" "id").build]
      = ["FOREIGN KEY (id) REFERENCES users(id) ON DELETE SET NULL"] := by decide

/-- Claim C4 evaluated at its input: inserting the spec's `User` instance
synthesizes a statement whose table name is the hard-coded generated
`database_name` `"aled"`, not `users`. -/
theorem c4_insert_statement_eval :
    insert_statement database_name (fields_value UserDecl userVals)
      = "INSERT INTO aled(id, name, age, activated) VALUES('abc', 'Jo', 25, true)" := by
  decide

theorem initialize_foldl_pk (fields : List DatabaseField) (acc : InitAcc) :
    (fields.foldl initialize_step acc).list_primary_key
      = acc.list_primary_key
        ++ (fields.filter (fun f => f.primary_key)).map DatabaseField.field_name := by
  induction fields generalizing acc with
  | nil => simp
  | cons f rest ih =>
    rw [List.foldl_cons, ih]
    cases hp : f.primary_key <;> cases hfk : f.foreign_key <;>
      simp [initialize_step, hp, hfk, List.filter_cons]

theorem initialize_foldl_fk (fields : List DatabaseField) (acc : InitAcc) :
    (fields.foldl initialize_step acc).list_foreign_key
      = acc.list_foreign_key ++ fields.filterMap DatabaseField.foreign_key := by
  induction fields generalizing acc with
  | nil => simp
  | cons f rest ih =>
    rw [List.foldl_cons, ih]
    cases hp : f.primary_key <;> cases hfk : f.foreign_key <;>
      simp [initialize_step, hp, hfk, List.filterMap_cons]

/-- Claim C6: whenever some descriptor is primary-key-marked, the constraint
list is exactly one `PRIMARY KEY` clause over the comma-joined names of all
primary-key-marked descriptors in descriptor order, followed by the
foreign-key clauses in descriptor order. -/
theorem c6_constraint_order (fields : List DatabaseField)
    (h : ∃ f ∈ fields, f.primary_key = true) :
    initialize_constraints fields
      = ("PRIMARY KEY ("
            ++ String.intercalate ","
                ((fields.filter (fun f => f.primary_key)).map DatabaseField.field_name)
            ++ ")")
          :: (fields.filterMap DatabaseField.foreign_key).map foreign_key_clause := by
  obtain ⟨f, hf, hpk⟩ := h
  have hmem : f.field_name ∈
      (fields.filter (fun f => f.primary_key)).map DatabaseField.field_name :=
    List.mem_map_of_mem _ (List.mem_filter.mpr ⟨hf, by simp [hpk]⟩)
  have hpos : 0 < ((fields.filter (fun f => f.primary_key)).map DatabaseField.field_name).length :=
    List.length_pos.mpr (List.ne_nil_of_mem hmem)
  have hfkif : ∀ l : List (String × String),
      (if l.length > 0 then l.map foreign_key_clause else []) = l.map foreign_key_clause := by
    intro l
    cases l <;> simp
  simp only [initialize_constraints, initialize_scan]
  rw [initialize_foldl_pk, initialize_foldl_fk]
  simp only [List.nil_append, hfkif]
  rw [if_pos hpos]
  simp

/-- Witness for C6 at the spec's composite-key example: two primary-key
descriptors `id1`, `id2`. -/
theorem c6_constraint_order_witness :
    (∃ f ∈ [((DatabaseField.builder "id1" (FieldType.Number 0)).is_primary_key).build,
            ((DatabaseField.builder "id2" (FieldType.Number 0)).is_primary_key).build],
        f.primary_key = true)
    ∧ initialize_constraints
        [((DatabaseField.builder "id1" (FieldType.Number 0)).is_primary_key).build,
         ((DatabaseField.builder "id2" (FieldType.Number 0)).is_primary_key).build]
        = ["PRIMARY KEY (id1,id2)"] := by
  refine ⟨by decide, ?_⟩
  rw [c6_constraint_order _ (by decide)]
  decide

/-- `String.intercalate.go` accumulates the separator-joined tail onto its
accumulator. -/
theorem intercalate_go_cons (s : String) :
    ∀ (t : List String) (acc b : String),
      String.intercalate.go acc s (b :: t) = acc ++ s ++ String.intercalate.go b s t := by
  intro t
  induction t with
  | nil =>
    intro acc b
    simp [String.intercalate.go]
  | cons c t ih =>
    intro acc b
    rw [show String.intercalate.go acc s (b :: c :: t)
          = String.intercalate.go (acc ++ s ++ b) s (c :: t) from rfl]
    rw [ih (acc ++ s ++ b) c, ih b c]
    simp [String.append_assoc]

/-- The joining loop of `update` computes the `" AND "`-intercalation of the
rendered conditions. -/
theorem update_where_join_eq (conds : List DatabaseCondition) :
    update_where_join conds = String.intercalate " AND " (conds.map stringify_condition) := by
  induction conds with
  | nil => rfl
  | cons c rest ih =>
    cases rest with
    | nil => rfl
    | cons c2 t =>
      rw [show update_where_join (c :: c2 :: t)
            = stringify_condition c ++ " AND " ++ update_where_join (c2 :: t) from rfl, ih]
      rw [show String.intercalate " AND " (List.map stringify_condition (c :: c2 :: t))
            = String.intercalate.go (stringify_condition c) " AND "
                (stringify_condition c2 :: List.map stringify_condition t) from rfl]
      rw [intercalate_go_cons]
      rfl

/-- The joining loop of `delete` is the same function as the one in
`update` (the source repeats the loop verbatim). -/
theorem delete_where_join_eq_update (conds : List DatabaseCondition) :
    delete_where_join conds = update_where_join conds := by
  induction conds with
  | nil => rfl
  | cons c rest ih =>
    cases rest with
    | nil => rfl
    | cons c2 t =>
      rw [show delete_where_join (c :: c2 :: t)
            = stringify_condition c ++ " AND " ++ delete_where_join (c2 :: t) from rfl, ih]
      rfl

/-- The joining loop of `get` is the same function as the one in `update`. -/
theorem get_where_join_eq_update (conds : List DatabaseCondition) :
    get_where_join conds = update_where_join conds := by
  induction conds with
  | nil => rfl
  | cons c rest ih =>
    cases rest with
    | nil => rfl
    | cons c2 t =>
      rw [show get_where_join (c :: c2 :: t)
            = stringify_condition c ++ " AND " ++ get_where_join (c2 :: t) from rfl, ih]
      rfl

/-- Claim C7: with an empty condition list the synthesized `UPDATE`,
`DELETE` and `SELECT` texts carry no `WHERE` clause at all (in particular
`delete` on table `users` is exactly `DELETE FROM users;`); with a non-empty
list the conditions follow `" WHERE "`, joined by `" AND "` in order. -/
theorem c7_where_clause (table : String) (fields : List DatabaseField)
    (conds : List DatabaseCondition) (h : conds ≠ []) :
    (update_statement table fields []
        = "UPDATE " ++ table ++ " SET ("
            ++ (stringify_datafield_in_key_val_string fields).1 ++ ") = ("
            ++ (stringify_datafield_in_key_val_string fields).2 ++ ")" ++ ";")
    ∧ (delete_statement table [] = "DELETE FROM " ++ table ++ ";")
    ∧ (get_statement table fields []
        = "SELECT " ++ String.intercalate ", " (fields.map DatabaseField.field_name)
            ++ " from " ++ table ++ ";")
    ∧ delete_statement "users" [] = "DELETE FROM users;"
    ∧ update_where conds
        = " WHERE " ++ String.intercalate " AND " (conds.map stringify_condition)
    ∧ delete_where conds
        = " WHERE " ++ String.intercalate " AND " (conds.map stringify_condition)
    ∧ get_where conds
        = " WHERE " ++ String.intercalate " AND " (conds.map stringify_condition) := by
  have hlen : conds.length > 0 := List.length_pos.mpr h
  refine ⟨?_, ?_, ?_, by decide, ?_, ?_, ?_⟩
  · simp only [update_statement, update_where, List.length_nil]
    rw [if_neg (by simp), String.append_empty]
  · simp only [delete_statement, delete_where, List.length_nil]
    rw [if_neg (by simp), String.append_empty]
  · simp only [get_statement, get_where, List.length_nil]
    rw [if_neg (by simp), String.append_empty]
  · simp only [update_where]
    rw [if_pos hlen, update_where_join_eq]
  · simp only [delete_where]
    rw [if_pos hlen, delete_where_join_eq_update, update_where_join_eq]
  · simp only [get_where]
    rw [if_pos hlen, get_where_join_eq_update, update_where_join_eq]

/-- Witness for C7 at the test suite's condition `id = 'heyZ'` on table
`users` with an empty field list. -/
theorem c7_where_clause_witness :
    (([({ name := "id", value := FieldType.String "heyZ",
          operator := ConditionOperator.Eq } : DatabaseCondition)]
        ≠ ([] : List DatabaseCondition))
      ∧ update_where
          [{ name := "id", value := FieldType.String "heyZ",
             operator := ConditionOperator.Eq }] = " WHERE id = 'heyZ'")
    ∧ delete_statement "users" [] = "DELETE FROM users;" := by
  have h := c7_where_clause "users" []
      [{ name := "id", value := FieldType.String "heyZ",
         operator := ConditionOperator.Eq }] (by decide)
  exact ⟨⟨by decide, by rw [h.2.2.2.2.1]; decide⟩, h.2.2.2.1⟩

/-- The operator table exactly as the spec states it:
Eq, Gt, Gte, Lt, Lte rendered as the five comparison symbols. -/
def spec_op_symbol : ConditionOperator → String
  | .Eq => "="
  | .Gt => ">"
  | .Gte => ">="
  | .Lt => "<"
  | .Lte => "<="

/-- Claim C8: every condition renders as `<name> <op_symbol> <literal>`,
with `Text` literals single-quoted and `Number`/`Boolean` literals bare,
and `op_symbol` as the spec's table; including the spec's two examples. -/
theorem c8_condition_rendering :
    (∀ (n : String) (op : ConditionOperator) (v : Int),
        stringify_condition { name := n, value := .Number v, operator := op }
          = n ++ " " ++ spec_op_symbol op ++ " " ++ toString v)
    ∧ (∀ (n : String) (op : ConditionOperator) (s : String),
        stringify_condition { name := n, value := .String s, operator := op }
          = n ++ " " ++ spec_op_symbol op ++ " '" ++ s ++ "'")
    ∧ (∀ (n : String) (op : ConditionOperator) (b : Bool),
        stringify_condition { name := n, value := .Bool b, operator := op }
          = n ++ " " ++ spec_op_symbol op ++ " " ++ toString b)
    ∧ stringify_condition { name := "age", value := .Number 18, operator := .Gte }
        = "age >= 18"
    ∧ stringify_condition { name := "name", value := .String "Bob", operator := .Eq }
        = "name = 'Bob'" := by
  refine ⟨?_, ?_, ?_, by decide, by decide⟩ <;>
    intro n op v <;> cases op <;> rfl

/-- Claim C10: the `WHERE`-clause text built inside `update`, the one built
inside `delete` and the one built inside `get` agree on every condition
list. -/
theorem c10_where_loops_agree (conds : List DatabaseCondition) :
    update_where conds = delete_where conds ∧ delete_where conds = get_where conds := by
  constructor <;>
    simp [update_where, delete_where, get_where,
      delete_where_join_eq_update, get_where_join_eq_update]

end SimpleOrm
